import Mathlib

/-!
Verification of the trajectory-reconstruction core of the
`ais-targetship-searcher` repository, as a shallow embedding in Lean 4.

Conventions used throughout:
 - Python floats are modelled as `ℚ` (exact arithmetic; none of the verified
   claims depends on rounding).
 - timestamps are unix seconds as `ℚ` (for the old code base the values
   compared are `datetime` differences in seconds, which the same model
   covers).
 - functions that raise in Python return `Option` here, with `none` for the
   raised exception.
-/

/-- One AIS position report, as used by the track assembler, the rule engine
and the correction passes (`AISMessage` in the source; only the fields read
by the verified code paths are modelled). -/
structure AISMessage where
  sender : Int
  timestamp : ℚ
  lat : ℚ
  lon : ℚ
  COG : ℚ
  SOG : ℚ
  deriving DecidableEq, Repr

/-- Comparison of two reports by timestamp, nonstrict (the sort key used by
`sort_values`, `list.sort(key=lambda x: x.timestamp)`). -/
abbrev tsLe (a b : AISMessage) : Prop := a.timestamp ≤ b.timestamp

/-- Comparison of two reports by timestamp, strict (used to state the
strictly-increasing-timestamps invariant). -/
abbrev tsLt (a b : AISMessage) : Prop := a.timestamp < b.timestamp

instance : IsTotal AISMessage tsLe := ⟨fun a b => le_total a.timestamp b.timestamp⟩

instance : IsTrans AISMessage tsLe := ⟨fun _ _ _ h1 h2 => le_trans h1 h2⟩

/-- A track (segment): an ordered list of reports of one vessel. -/
abbrev Track := List AISMessage

/-- A rule of the segment filter: a predicate over a track, `true` meaning
"reject" (`Recipe.Rule` in `pytsa/trajectories/rules.py`). -/
abbrev Rule := Track → Bool

/-- The rule recipe of `pytsa/trajectories/rules.py`: a tuple of rules. -/
structure Recipe where
  funcs : List Rule

/-- Embedding of `Recipe.cooked` from `pytsa/trajectories/rules.py`:
`all(func(track) for func in self.funcs)`. -/
def Recipe.cooked (r : Recipe) (track : Track) : Bool :=
  r.funcs.all (fun func => func track)

/-- Binary maximum on `ℚ`, written out so that it evaluates by kernel
reduction (Mathlib's lattice `max` does not). -/
def qmax (a b : ℚ) : ℚ := if a ≤ b then b else a

/-- Binary minimum on `ℚ`, written out so that it evaluates by kernel
reduction. -/
def qmin (a b : ℚ) : ℚ := if a ≤ b then a else b

/-- NumPy's `np.ptp` (peak-to-peak, max minus min) of a list of rationals; the source
only applies it to nonempty lists (for `[]` NumPy raises, here `0`). -/
def ptp (l : List ℚ) : ℚ :=
  match l with
  | [] => 0
  | x :: xs => xs.foldl qmax x - xs.foldl qmin x

/-- Embedding of `too_small_span` from `pytsa/trajectories/rules.py` (the same code appears
as `SearchAgent._track_span_filter` in `src/pytsa/search_agent.py`):
computes `lat_span = np.ptp(lats)`, `lon_span = np.ptp(lons)` and returns
`lat_span > span and lon_span > span`. -/
def too_small_span (track : Track) (span : ℚ) : Bool :=
  let lat_span := ptp (track.map AISMessage.lat)
  let lon_span := ptp (track.map AISMessage.lon)
  decide (lat_span > span) && decide (lon_span > span)

/-- The rejection predicate the spec states for `too_small_span`: reject iff
the latitude range is at most `span` or the longitude range is at most
`span`. Written from the spec, to be compared with the source function. -/
def spec_span_reject (track : Track) (span : ℚ) : Bool :=
  let lat_span := ptp (track.map AISMessage.lat)
  let lon_span := ptp (track.map AISMessage.lon)
  decide (lat_span ≤ span) || decide (lon_span ≤ span)

/-- C1 counterexample: with rule `A = fun _ => true` (always reject) and
`B = fun _ => false` (always accept), the recipe containing `A` alone rejects
the empty track, but the cooked recipe built from `{A, B}` does not reject
it — `Recipe.cooked` takes the conjunction `all(...)` of the rules' verdicts,
so one accepting rule overrides a rejecting one. -/
theorem cooked_conjunction_counterexample :
    Recipe.cooked ⟨[fun _ => true]⟩ [] = true ∧
    Recipe.cooked ⟨[fun _ => true, fun _ => false]⟩ [] = false := by
  exact ⟨rfl, rfl⟩

/-- C1 (amended): for every track and rules `A`, `B`, the cooked recipe built
from `{A, B}` rejects the track exactly when both `A` and `B` return `true`;
hence a track rejected by `A` alone is rejected by `{A, B}` iff `B` also
rejects it. -/
theorem cooked_recipe_is_conjunction (A B : Rule) (track : Track) :
    Recipe.cooked ⟨[A, B]⟩ track = (A track && B track) := by
  simp [Recipe.cooked, List.all]

/-- C2: at the concrete track with reports at `(lat, lon) = (0, 0)` and
`(1, 1)` and threshold `span = 1/2`, both coordinate ranges equal `1` and
exceed the threshold, so by the claim (and by the function's own docstring)
the track must be accepted; the code instead returns `true` (reject),
because its comparison is inverted relative to its documentation. -/
theorem too_small_span_code_bug :
    too_small_span
      [⟨1, 0, 0, 0, 0, 0⟩, ⟨1, 60, 1, 1, 0, 0⟩] (1/2) = true ∧
    spec_span_reject
      [⟨1, 0, 0, 0, 0, 0⟩, ⟨1, 60, 1, 1, 0, 0⟩] (1/2) = false := by
  exact ⟨by with_unfolding_all rfl, by with_unfolding_all rfl⟩

/-- Embedding of `SearchAgent._gap_too_large` from `src/pytsa/search_agent.py`:
`(msg_t1.timestamp - msg_t0.timestamp).total_seconds() > tgap or
haversine(...) > dgap`. The haversine great-circle distance is a
floating-point transcendental computation; it is abstracted here as the
parameter `hav`, since the function under scrutiny only compares its value
against `dgap`. -/
def gap_too_large (hav : AISMessage → AISMessage → ℚ)
    (tgap dgap : ℚ) (msg_t0 msg_t1 : AISMessage) : Bool :=
  decide (msg_t1.timestamp - msg_t0.timestamp > tgap) ||
    decide (hav msg_t0 msg_t1 > dgap)

/-- C5: the segmentation predicate returns `true` iff the elapsed seconds
strictly exceed `tgap` or the distance strictly exceeds `dgap`; in
particular, when both quantities equal their thresholds exactly it returns
`false` (strict comparison on both disjuncts). -/
theorem gap_too_large_strict (hav : AISMessage → AISMessage → ℚ)
    (tgap dgap : ℚ) (msg_t0 msg_t1 : AISMessage) :
    (gap_too_large hav tgap dgap msg_t0 msg_t1 = true ↔
      (msg_t1.timestamp - msg_t0.timestamp > tgap ∨ hav msg_t0 msg_t1 > dgap)) ∧
    (msg_t1.timestamp - msg_t0.timestamp = tgap → hav msg_t0 msg_t1 = dgap →
      gap_too_large hav tgap dgap msg_t0 msg_t1 = false) := by
  constructor
  · simp [gap_too_large]
  · intro h1 h2
    simp [gap_too_large, h1, h2]

/-- C5 witness: with a constant distance function, two reports exactly `10`
seconds apart, `tgap = 10` and the distance exactly at `dgap = 5`, the
predicate does not split; and strictly larger elapsed time makes it split. -/
theorem gap_too_large_strict_witness :
    gap_too_large (fun _ _ => 5) 10 5 ⟨1, 0, 0, 0, 0, 0⟩ ⟨1, 10, 0, 0, 0, 0⟩ = false ∧
    gap_too_large (fun _ _ => 5) 10 5 ⟨1, 0, 0, 0, 0, 0⟩ ⟨1, 11, 0, 0, 0, 0⟩ = true := by
  constructor
  · exact (gap_too_large_strict (fun _ _ => 5) 10 5 ⟨1, 0, 0, 0, 0, 0⟩
      ⟨1, 10, 0, 0, 0, 0⟩).2 (by with_unfolding_all rfl) rfl
  · exact (gap_too_large_strict (fun _ _ => 5) 10 5 ⟨1, 0, 0, 0, 0, 0⟩
      ⟨1, 11, 0, 0, 0, 0⟩).1.mpr (Or.inl (by with_unfolding_all decide))

/-- Raw rate-of-turn input of `AISMessage._rot_handler` in
`src/pytsa/targetship.py`: either a value that `float()` accepts
(modelled exactly as a rational) or anything `float()` raises on. -/
inductive RawROT where
  | num (q : ℚ)
  | unparsable
  deriving DecidableEq, Repr

/-- NumPy's `np.sign` on rationals. -/
def qsign (q : ℚ) : ℚ := if 0 < q then 1 else if q < 0 then -1 else 0

/-- Embedding of `AISMessage._rot_handler` from `src/pytsa/targetship.py`: non-numeric
input returns `None`; `abs(rot) == 127 or abs(rot) == 128` returns `None`;
otherwise `sign * (rot / 4.733) ** 2`. -/
def rot_handler : RawROT → Option ℚ
  | .unparsable => none
  | .num q =>
      if abs q = 127 ∨ abs q = 128 then none
      else some (qsign q * (q / (4733/1000)) ^ 2)

/-- C6: raw ROT values with absolute value `127` or `128` decode to
unavailable (`none`), any other numeric raw value decodes to
`sign(raw) * (raw / 4.733) ^ 2`, and unparsable raw input decodes to
`none`. -/
theorem rot_handler_spec (q : ℚ) :
    (abs q = 127 ∨ abs q = 128 → rot_handler (.num q) = none) ∧
    (¬(abs q = 127 ∨ abs q = 128) →
      rot_handler (.num q) = some (qsign q * (q / (4733/1000)) ^ 2)) ∧
    rot_handler .unparsable = none := by
  refine ⟨fun h => by simp [rot_handler, h], fun h => by simp [rot_handler, h], rfl⟩

/-- C6 witness: `-127` decodes to unavailable, and `20` decodes to
`(20 / 4.733) ^ 2` (positive sign). -/
theorem rot_handler_spec_witness :
    rot_handler (.num (-127)) = none ∧
    rot_handler (.num 20) = some (qsign 20 * ((20 : ℚ) / (4733/1000)) ^ 2) := by
  constructor
  · exact (rot_handler_spec (-127)).1 (Or.inl (by with_unfolding_all rfl))
  · exact (rot_handler_spec 20).2.1 (by with_unfolding_all decide)

/-- Python's `more_itertools.pairwise`: successive overlapping pairs of a
list. -/
def pairwiseL {α : Type} (l : List α) : List (α × α) := l.zip l.tail

/-- Embedding of `SearchAgent._speed_correction` from `src/pytsa/tsea/search_agent.py`,
for one target ship. The source iterates `for msg_t0, msg_t1 in
pairwise(target.tracks)` — over successive pairs of whole tracks, not over
the reports inside a track. Its body immediately evaluates
`_time_mean_speed(msg_t0, msg_t1)`, which reads `.lat` of its arguments;
a Python `list` has no such attribute, so the first iteration raises
`AttributeError` (modelled as `none`). When the vessel has at most one
track, `pairwise` yields no pairs and the loop body never runs: the tracks
are returned unchanged and the correction counter `_n_speed_correction`
stays `0`. -/
def speed_correction (tracks : List Track) : Option (List Track × Nat) :=
  match pairwiseL tracks with
  | [] => some (tracks, 0)
  | _ :: _ => none

/-- C4: at the claim's own scenario — one vessel with a single track of
three reports whose SOG sequence is `[10, 10, 40]` knots — the speed
correction changes nothing: the track and the SOG value `40` are returned
as they were, and the correction counter is `0`, not `1`, because the
source iterates over pairs of tracks instead of pairs of reports. -/
theorem speed_correction_code_eval :
    speed_correction
      [[⟨1, 0, 54, 8, 90, 10⟩, ⟨1, 3600, 54, (81/10), 90, 10⟩,
        ⟨1, 7200, 54, (83/10), 90, 40⟩]] =
    some ([[⟨1, 0, 54, 8, 90, 10⟩, ⟨1, 3600, 54, (81/10), 90, 10⟩,
        ⟨1, 7200, 54, (83/10), 90, 40⟩]], 0) := by
  with_unfolding_all rfl

/-- Modelled from the spec: `is_split_point(a, b)` of the module
`pytsa.tsea.split`, whose source file is not part of the sources at hand —
true iff `elapsed_seconds(a,b) > max_time_gap` or
`great_circle_distance(a,b) > max_distance_gap`. The great-circle distance
is abstracted as the parameter `dist` (for reports at exactly the same
position every distance function returns `0`). -/
def is_split_point (dist : AISMessage → AISMessage → ℚ)
    (max_time_gap max_distance_gap : ℚ) (a b : AISMessage) : Bool :=
  decide (b.timestamp - a.timestamp > max_time_gap) ||
    decide (dist a b > max_distance_gap)

/-- The split-point loop of `SearchAgent._determine_split_points` from
`src/pytsa/tsea/search_agent.py`, for one track (after `_join_tracks` every
target holds exactly one track, so the outer `for track in tgt.tracks` loop
runs once). The source sorts the track, then for
`i, (msg_t0, msg_t1) in enumerate(pairwise(track))` appends the slice
`track[tstartidx : i + 1]` whenever `split.is_split_point(msg_t0, msg_t1)`
holds and sets `tstartidx = i + 1`; after the loop it keeps only pieces
with more than one report. The trailing slice `track[tstartidx:]` is never
appended — this embedding mirrors that. The source's duplicate branch
(`track.remove(msg_t1)` while iterating) is only exercised by tracks with
equal adjacent timestamps; every theorem below uses tracks with pairwise
distinct timestamps, on which that branch never fires and this embedding
agrees with the source. -/
def determine_split_points (p : AISMessage → AISMessage → Bool)
    (track : Track) : List Track :=
  let sorted := track.insertionSort tsLe
  let state := (List.range (sorted.length - 1)).foldl
    (fun (st : List Track × Nat) i =>
      match sorted[i]?, sorted[i+1]? with
      | some msg_t0, some msg_t1 =>
          if msg_t0.timestamp = msg_t1.timestamp then st
          else if p msg_t0 msg_t1 then
            (st.1 ++ [(sorted.drop st.2).take (i + 1 - st.2)], i + 1)
          else st
      | _, _ => st)
    ([], 0)
  state.1.filter (fun t => 1 < t.length)

/-- C3: track assembly loses reports. For one vessel with three reports at
the same position and timestamps `0`, `60`, `7200` (pairwise distinct, so
timestamp de-duplication drops nothing) and the spec's split predicate with
`max_time_gap = 1800` seconds, the pair `(60, 7200)` is a split point, so
the splitter emits only the piece before it: the report at `t = 7200` is in
no output segment, contradicting the claim that only de-duplicated reports
may disappear. (With no split point at all, the same loop would return no
segment whatsoever, losing the entire track.) -/
theorem determine_split_points_loses_tail :
    determine_split_points (is_split_point (fun _ _ => 0) 1800 1)
      [⟨1, 0, 54, 8, 90, 10⟩, ⟨1, 60, 54, 8, 90, 10⟩, ⟨1, 7200, 54, 8, 90, 10⟩] =
    [[⟨1, 0, 54, 8, 90, 10⟩, ⟨1, 60, 54, 8, 90, 10⟩]] := by
  with_unfolding_all rfl

/-- The de-duplicating append loop of `SearchAgent._impl_construct_target_vessel`
from `src/pytsa/tsea/search_agent.py`: walking the timestamp-sorted reports,
a report is appended only if its timestamp differs from the last appended
report's timestamp (`if msg.timestamp == tv.tracks[-1][-1].timestamp:
continue`). `last` is the most recently appended report. -/
def dedupFrom (last : AISMessage) : List AISMessage → List AISMessage
  | [] => []
  | m :: rest =>
      if m.timestamp = last.timestamp then dedupFrom last rest
      else m :: dedupFrom m rest

/-- Embedding of `SearchAgent._impl_construct_target_vessel` from
`src/pytsa/tsea/search_agent.py`, track construction for one vessel: sort
the reports by timestamp (`dyn.sort_values`, a stable sort, modelled by
insertion sort), append the first report, then append each further report
unless its timestamp equals the previously appended one. -/
def impl_construct_track (msgs : Track) : Track :=
  match msgs.insertionSort tsLe with
  | [] => []
  | m :: rest => m :: dedupFrom m rest

/-- Embedding of `SearchAgent._join_tracks` from `src/pytsa/tsea/search_agent.py`, for
one vessel and two chunk-local tracks: if the first report of the second
track has the same timestamp as the last report of the first track, it is
popped before concatenation. -/
def join_tracks (t1 t2 : Track) : Track :=
  match t1.getLast?, t2 with
  | some a, b :: rest =>
      if a.timestamp = b.timestamp then t1 ++ rest else t1 ++ b :: rest
  | _, _ => t1 ++ t2

/-- The per-vessel loop of `SearchAgent._sp_construct_target_vessels` from
`src/pytsa/tsea/search_agent.py`: walk the sorted reports; when
`split.is_split_point(tracks[-1][-1], msg)` holds start a new track, then
append the report to the last track. There is no duplicate-timestamp check
on this path. The accumulator keeps the current (last) track reversed;
`done` holds the finished tracks. -/
def sp_go (p : AISMessage → AISMessage → Bool) :
    List Track → Track → List AISMessage → List Track
  | done, cur, [] => done ++ [cur.reverse]
  | done, cur, m :: rest =>
      match cur with
      | [] => sp_go p done [m] rest
      | last :: _ =>
          if p last m then sp_go p (done ++ [cur.reverse]) [m] rest
          else sp_go p done (m :: cur) rest

/-- Embedding of `SearchAgent._sp_construct_target_vessels` (single-process assembly,
`overlap = False`) from `src/pytsa/tsea/search_agent.py` for one vessel:
sort by timestamp, build tracks with the split predicate, then
`_remove_single_obs` keeps only tracks with at least two reports. -/
def sp_construct_tracks (p : AISMessage → AISMessage → Bool) (msgs : Track) :
    List Track :=
  (match msgs.insertionSort tsLe with
   | [] => []
   | m :: rest => sp_go p [] [m] rest).filter (fun t => 2 ≤ t.length)

/-- If `l` is sorted by timestamp and every element is at or after `last`,
then `last` followed by the de-duplicated tail has strictly increasing
timestamps. -/
theorem dedupFrom_chain (l : List AISMessage) :
    ∀ last : AISMessage, l.Sorted tsLe → (∀ x ∈ l, last.timestamp ≤ x.timestamp) →
    List.Chain' tsLt (last :: dedupFrom last l) := by
  induction l with
  | nil => intro last _ _; simp [dedupFrom]
  | cons m rest ih =>
      intro last hs hle
      rw [List.sorted_cons] at hs
      by_cases hdup : m.timestamp = last.timestamp
      · rw [dedupFrom, if_pos hdup]
        exact ih last hs.2 (fun x hx => hdup ▸ hs.1 x hx)
      · rw [dedupFrom, if_neg hdup]
        refine List.chain'_cons.mpr ⟨?_, ih m hs.2 hs.1⟩
        exact lt_of_le_of_ne (hle m (List.mem_cons_self m rest)) (Ne.symm hdup)

/-- C8 (amended): every track produced by the per-chunk multi-process
assembly has strictly increasing, unique timestamps (a later report with a
duplicate timestamp is dropped, the earlier one kept), and the chunk-join
step preserves strictly increasing timestamps whenever the joined chunk
tracks are in time order, sharing at most the boundary timestamp (in which
case the duplicated boundary report of the second chunk is dropped). -/
theorem assembled_chunk_tracks_strictly_increasing :
    (∀ msgs : Track, List.Chain' tsLt (impl_construct_track msgs)) ∧
    (∀ t1 t2 : Track, List.Chain' tsLt t1 → List.Chain' tsLt t2 →
      (∀ a b, t1.getLast? = some a → t2.head? = some b →
        a.timestamp ≤ b.timestamp) →
      List.Chain' tsLt (join_tracks t1 t2)) := by
  constructor
  · intro msgs
    have hs := List.sorted_insertionSort tsLe msgs
    unfold impl_construct_track
    cases h : msgs.insertionSort tsLe with
    | nil => simp
    | cons m rest =>
        rw [h] at hs
        rw [List.sorted_cons] at hs
        exact dedupFrom_chain rest m hs.2 hs.1
  · intro t1 t2 h1 h2 hb
    unfold join_tracks
    cases hL : t1.getLast? with
    | none =>
        rw [List.getLast?_eq_none_iff] at hL
        subst hL
        simpa using h2
    | some a =>
        cases t2 with
        | nil => simpa using h1
        | cons b rest =>
            show List.Chain' tsLt
              (if a.timestamp = b.timestamp then t1 ++ rest else t1 ++ b :: rest)
            have hcons := List.chain'_cons'.mp h2
            by_cases hd : a.timestamp = b.timestamp
            · rw [if_pos hd]
              refine List.chain'_append.mpr ⟨h1, hcons.2, ?_⟩
              intro x hx y hy
              rw [Option.mem_def, hL] at hx
              have hxa : a = x := Option.some_inj.mp hx
              subst hxa
              exact lt_of_le_of_lt (le_of_eq hd) (hcons.1 y hy)
            · rw [if_neg hd]
              refine List.chain'_append.mpr ⟨h1, h2, ?_⟩
              intro x hx y hy
              rw [Option.mem_def, hL] at hx
              have hxa : a = x := Option.some_inj.mp hx
              subst hxa
              rw [Option.mem_def, List.head?_cons] at hy
              have hyb : b = y := Option.some_inj.mp hy
              subst hyb
              exact lt_of_le_of_ne (hb _ _ hL rfl) hd

/-- C8 witness: the per-chunk assembly of three reports with timestamps
`200, 100, 100` yields a strictly increasing track, and joining two
chunk tracks that share the boundary timestamp `60` yields a strictly
increasing track. -/
theorem assembled_chunk_tracks_strictly_increasing_witness :
    List.Chain' tsLt (impl_construct_track
      [⟨1, 200, 54, 8, 0, 0⟩, ⟨1, 100, 54, 8, 0, 0⟩, ⟨1, 100, 55, 8, 0, 0⟩]) ∧
    List.Chain' tsLt (join_tracks
      [⟨1, 0, 54, 8, 0, 0⟩, ⟨1, 60, 54, 8, 0, 0⟩]
      [⟨1, 60, 54, 8, 0, 0⟩, ⟨1, 120, 54, 8, 0, 0⟩]) := by
  constructor
  · exact assembled_chunk_tracks_strictly_increasing.1 _
  · refine assembled_chunk_tracks_strictly_increasing.2 _ _
      (List.chain'_pair.mpr (by decide)) (List.chain'_pair.mpr (by decide)) ?_
    intro a b h1 h2
    rw [show List.getLast? [(⟨1, 0, 54, 8, 0, 0⟩ : AISMessage),
      ⟨1, 60, 54, 8, 0, 0⟩] = some ⟨1, 60, 54, 8, 0, 0⟩ from rfl] at h1
    rw [show ([(⟨1, 60, 54, 8, 0, 0⟩ : AISMessage),
      ⟨1, 120, 54, 8, 0, 0⟩]).head? = some ⟨1, 60, 54, 8, 0, 0⟩ from rfl] at h2
    have ha := Option.some_inj.mp h1
    have hc := Option.some_inj.mp h2
    rw [ha.symm, hc.symm]

/-- C8 counterexample: on the single-process assembly path, two input
reports of one vessel with the same timestamp `100` and the same position
`(54, 8)` (the situation the source's own multi-process dedup comment
describes: one message received by multiple AIS stations; they differ here
only in the reported SOG) are not a split point — the elapsed time is `0`
and the great-circle distance between identical coordinates is `0` under
every distance function, so the constant-`0` instantiation of the
abstracted distance is exact. Both reports therefore end up in the same
produced segment, whose timestamps are `100, 100`: not strictly
increasing, and the later duplicate-timestamp report was not dropped. -/
theorem sp_track_keeps_duplicate_timestamp :
    sp_construct_tracks (is_split_point (fun _ _ => 0) 1800 1)
      [⟨1, 100, 54, 8, 0, 10⟩, ⟨1, 100, 54, 8, 0, 12⟩] =
      [[⟨1, 100, 54, 8, 0, 10⟩, ⟨1, 100, 54, 8, 0, 12⟩]] ∧
    ¬ List.Chain' tsLt [⟨1, 100, 54, 8, 0, 10⟩, ⟨1, 100, 54, 8, 0, 12⟩] := by
  constructor
  · with_unfolding_all rfl
  · intro h
    exact absurd (List.chain'_pair.mp h) (by decide)

/-- Python float modulo `q % 360` (result in `[0, 360)` for positive
modulus), as applied to the interpolated COG. -/
def qmod360 (q : ℚ) : ℚ := q - 360 * (⌊q / 360⌋ : ℤ)

/-- NumPy's `np.arange(start, stop, step)`: the values `start + i * step` for
`0 ≤ i < ⌈(stop - start) / step⌉` (empty when the ceiling is not
positive). -/
def arange (start stop step : ℚ) : List ℚ :=
  (List.range (⌈(stop - start) / step⌉.toNat)).map
    (fun i : ℕ => start + (i : ℚ) * step)

/-- The six per-channel interpolation functions attached to a target vessel
(`TrackSplines` / `TrackLinear` in `src/pytsa/targetship.py`), abstracted as
functions of time: the claim under scrutiny concerns only where they are
evaluated, not their numerical values. -/
structure Interp where
  northing : ℚ → ℚ
  easting : ℚ → ℚ
  COG : ℚ → ℚ
  SOG : ℚ → ℚ
  ROT : ℚ → ℚ
  dROT : ℚ → ℚ

/-- Embedding of `TargetVessel.observe_interval` from `src/pytsa/targetship.py`:
raises `OutofTimeBoundsError` (modelled as `none`) when
`start < self.lower.timestamp`, or when `end > self.upper.timestamp`;
otherwise evaluates all six channels and the timestamp over
`np.arange(start, end, interval)`. `lower`/`upper` are the timestamps of
the track's shell (first and last report). -/
def observe_interval (ip : Interp) (lower upper : ℚ)
    (start stop interval : ℚ) : Option (List (List ℚ)) :=
  if start < lower then none
  else if stop > upper then none
  else some ((arange start stop interval).map (fun t =>
    [ip.northing t, ip.easting t, qmod360 (ip.COG t), ip.SOG t,
     ip.ROT t, ip.dROT t, t]))

/-- C7 counterexample: for a track with time domain `[0, 100]`, the interval
query with `start = 150` and `end = 100` has its start bound outside the
domain, yet no out-of-time-bounds error is raised: the code only checks
`start < t_first` and `end > t_last`, and `np.arange(150, 100, 10)` is
empty, so the call returns an empty sample array instead of failing. -/
theorem observe_interval_no_error_outside_domain :
    observe_interval ⟨fun _ => 0, fun _ => 0, fun _ => 0, fun _ => 0,
        fun _ => 0, fun _ => 0⟩ 0 100 150 100 10 = some [] ∧
    ¬((0:ℚ) ≤ 150 ∧ (150:ℚ) ≤ 100) := by
  constructor
  · with_unfolding_all rfl
  · intro h
    exact absurd h.2 (by decide)

/-- C7 (amended): an interval query fails with the out-of-time-bounds error
iff `start < t_first` or `end > t_last` (so a start beyond `t_last` or an
end before `t_first` does not raise, producing an empty sample array
instead); and whenever the query succeeds, every sample timestamp lies
within the track's time domain `[t_first, t_last]` — no extrapolation. -/
theorem observe_interval_bounds (ip : Interp) (lower upper start stop interval : ℚ)
    (hpos : 0 < interval) :
    (observe_interval ip lower upper start stop interval = none ↔
      start < lower ∨ stop > upper) ∧
    (observe_interval ip lower upper start stop interval ≠ none →
      ∀ t ∈ arange start stop interval, lower ≤ t ∧ t ≤ upper) := by
  constructor
  · by_cases h1 : start < lower
    · simp [observe_interval, h1]
    · by_cases h2 : stop > upper
      · simp [observe_interval, h1, h2]
      · simp [observe_interval, h1, h2]
  · intro hne t ht
    by_cases h1 : start < lower
    · exact absurd (by simp [observe_interval, h1]) hne
    by_cases h2 : stop > upper
    · exact absurd (by simp [observe_interval, h1, h2]) hne
    simp only [arange, List.mem_map, List.mem_range] at ht
    obtain ⟨i, hi, rfl⟩ := ht
    have hiz : (i : ℤ) < ⌈(stop - start) / interval⌉ := Int.lt_toNat.mp hi
    have hiq : (i : ℚ) < (stop - start) / interval := by
      exact_mod_cast Int.lt_ceil.mp hiz
    have hlt : (i : ℚ) * interval < stop - start :=
      (lt_div_iff₀ hpos).mp hiq
    constructor
    · have h0 : (0 : ℚ) ≤ (i : ℚ) * interval :=
        mul_nonneg (Nat.cast_nonneg i) (le_of_lt hpos)
      have : lower ≤ start := le_of_not_lt h1
      linarith
    · have : stop ≤ upper := le_of_not_lt h2
      linarith

/-- C7 witness: a query with `start = 20`, `end = 80`, `interval = 30` on the
time domain `[0, 100]` — the theorem is instantiated at it, giving that the
query does not raise and that all its sample timestamps stay within the
domain. -/
theorem observe_interval_bounds_witness :
    (observe_interval ⟨fun _ => 1, fun _ => 2, fun _ => 3, fun _ => 4,
        fun _ => 5, fun _ => 6⟩ 0 100 20 80 30 = none ↔
      (20:ℚ) < 0 ∨ (80:ℚ) > 100) ∧
    (observe_interval ⟨fun _ => 1, fun _ => 2, fun _ => 3, fun _ => 4,
        fun _ => 5, fun _ => 6⟩ 0 100 20 80 30 ≠ none →
      ∀ t ∈ arange 20 80 30, (0:ℚ) ≤ t ∧ t ≤ 100) := by
  exact observe_interval_bounds _ 0 100 20 80 30 (by decide)

/-- Squared planar Euclidean distance between two points, the comparison
measure of the k-d tree (comparing squared distances against the squared
upper bound is equivalent to comparing distances against the bound). -/
def sqDist (p q : ℚ × ℚ) : ℚ := (p.1 - q.1) ^ 2 + (p.2 - q.2) ^ 2

/-- The candidate reports within the search radius of the anchor, as
`(index, point)` pairs over the pool. -/
def within_radius (pts : List (ℚ × ℚ)) (anchor : ℚ × ℚ) (radius : ℚ) :
    List (Nat × (ℚ × ℚ)) :=
  pts.enum.filter (fun p => decide (sqDist p.2 anchor ≤ radius ^ 2))

/-- Comparison of `(distance, index)` candidates by distance. -/
abbrev distLe (a b : ℚ × Nat) : Prop := a.1 ≤ b.1

/-- Modelled from the spec: the bounded `cKDTree.query(pos, k,
distance_upper_bound)` call of `SearchAgent._get_neighbors`
(`src/pytsa/tsea/search_agent.py`). SciPy is an external collaborator; per
its documented contract the query returns the `k` nearest candidates within
the distance upper bound as parallel arrays `(d, indices)`, padding with
infinite distance (`⊤` here) and index `n` (the pool size) when fewer than
`k` candidates lie within the bound. -/
def kdQuery (pts : List (ℚ × ℚ)) (anchor : ℚ × ℚ) (k : Nat) (radius : ℚ) :
    List (WithTop ℚ) × List Nat :=
  let cand := (within_radius pts anchor radius).map
    (fun p => (sqDist p.2 anchor, p.1))
  let kept := (cand.insertionSort distLe).take k
  (kept.map (fun p => ((p.1 : ℚ) : WithTop ℚ)) ++
     List.replicate (k - kept.length) ⊤,
   kept.map Prod.snd ++ List.replicate (k - kept.length) pts.length)

/-- The infinite-distance filter of `SearchAgent._get_neighbors` from
`src/pytsa/tsea/search_agent.py`:
`res = [indices[i] for i, j in enumerate(d) if j != float("inf")]`. -/
def get_neighbors_filter (d : List (WithTop ℚ)) (indices : List Nat) :
    List Nat :=
  ((d.zip indices).filter (fun p => decide (p.1 ≠ ⊤))).map Prod.snd

/-- C9: when only `m ≤ k` candidates lie within the search radius, the
neighbor query returns exactly `m` results — every infinite-distance
placeholder is filtered out — and every returned index is the index of a
candidate within the radius. -/
theorem get_neighbors_excludes_infinite (pts : List (ℚ × ℚ))
    (anchor : ℚ × ℚ) (k : Nat) (radius : ℚ)
    (hm : (within_radius pts anchor radius).length ≤ k) :
    (get_neighbors_filter (kdQuery pts anchor k radius).1
        (kdQuery pts anchor k radius).2).length
      = (within_radius pts anchor radius).length ∧
    ∀ i ∈ get_neighbors_filter (kdQuery pts anchor k radius).1
        (kdQuery pts anchor k radius).2,
      ∃ pt, (i, pt) ∈ within_radius pts anchor radius := by
  have hcand :
      ((within_radius pts anchor radius).map
        (fun p => (sqDist p.2 anchor, p.1))).length
        = (within_radius pts anchor radius).length := by
    rw [List.length_map]
  have hperm := List.perm_insertionSort distLe
    ((within_radius pts anchor radius).map (fun p => (sqDist p.2 anchor, p.1)))
  have hslen := hperm.length_eq
  have hkept : (((within_radius pts anchor radius).map
        (fun p => (sqDist p.2 anchor, p.1))).insertionSort distLe).take k
      = ((within_radius pts anchor radius).map
        (fun p => (sqDist p.2 anchor, p.1))).insertionSort distLe := by
    exact List.take_of_length_le (by rw [hslen, hcand]; exact hm)
  have hres : get_neighbors_filter (kdQuery pts anchor k radius).1
      (kdQuery pts anchor k radius).2
      = ((((within_radius pts anchor radius).map
          (fun p => (sqDist p.2 anchor, p.1))).insertionSort distLe).map
          Prod.snd) := by
    unfold kdQuery get_neighbors_filter
    simp only [hkept]
    rw [List.zip_append (by rw [List.length_map, List.length_map]),
      List.zip_map' , List.filter_append]
    have hrepl : (List.replicate
        (k - (((within_radius pts anchor radius).map
          (fun p => (sqDist p.2 anchor, p.1))).insertionSort distLe).length)
          (⊤ : WithTop ℚ)).zip
        (List.replicate
          (k - (((within_radius pts anchor radius).map
            (fun p => (sqDist p.2 anchor, p.1))).insertionSort distLe).length)
          pts.length)
        = List.replicate
          (k - (((within_radius pts anchor radius).map
            (fun p => (sqDist p.2 anchor, p.1))).insertionSort distLe).length)
          ((⊤ : WithTop ℚ), pts.length) := by
      rw [List.zip_replicate, min_self]
    rw [hrepl]
    have hfall : ∀ x ∈ (((within_radius pts anchor radius).map
        (fun p => (sqDist p.2 anchor, p.1))).insertionSort distLe).map
          (fun p => (((p.1 : ℚ) : WithTop ℚ), p.2)),
        (fun p : WithTop ℚ × Nat => decide (p.1 ≠ ⊤)) x = true := by
      intro x hx
      rw [List.mem_map] at hx
      obtain ⟨p, _, rfl⟩ := hx
      simp
    rw [List.filter_eq_self.mpr hfall]
    have hfnone : List.filter (fun p : WithTop ℚ × Nat => decide (p.1 ≠ ⊤))
        (List.replicate
          (k - (((within_radius pts anchor radius).map
            (fun p => (sqDist p.2 anchor, p.1))).insertionSort distLe).length)
          ((⊤ : WithTop ℚ), pts.length)) = [] := by
      rw [List.filter_eq_nil_iff]
      intro a ha
      rw [List.eq_of_mem_replicate ha]
      simp
    rw [hfnone, List.append_nil, List.map_map]
    rfl
  constructor
  · rw [hres, List.length_map, hslen, hcand]
  · intro i hi
    rw [hres, List.mem_map] at hi
    obtain ⟨p, hp, rfl⟩ := hi
    have hpc := hperm.mem_iff.mp hp
    rw [List.mem_map] at hpc
    obtain ⟨q, hq, rfl⟩ := hpc
    exact ⟨q.2, by simpa using hq⟩

/-- C9 witness: a pool of four points with anchor `(0, 0)` and radius `1`
has exactly `3` candidates within the radius; with `k = 5` the query
returns exactly `3` results and each is within the radius. -/
theorem get_neighbors_excludes_infinite_witness :
    ((get_neighbors_filter
        (kdQuery [(0, 0), (1/2, 0), (5, 5), (0, 3/4)] (0, 0) 5 1).1
        (kdQuery [(0, 0), (1/2, 0), (5, 5), (0, 3/4)] (0, 0) 5 1).2).length
      = (within_radius [(0, 0), (1/2, 0), (5, 5), (0, 3/4)] (0, 0) 1).length ∧
    ∀ i ∈ get_neighbors_filter
        (kdQuery [(0, 0), (1/2, 0), (5, 5), (0, 3/4)] (0, 0) 5 1).1
        (kdQuery [(0, 0), (1/2, 0), (5, 5), (0, 3/4)] (0, 0) 5 1).2,
      ∃ pt, (i, pt) ∈ within_radius [(0, 0), (1/2, 0), (5, 5), (0, 3/4)] (0, 0) 1) ∧
    (within_radius [(0, 0), (1/2, 0), (5, 5), (0, 3/4)] (0, 0) 1).length = 3 := by
  constructor
  · exact get_neighbors_excludes_infinite [(0, 0), (1/2, 0), (5, 5), (0, 3/4)]
      (0, 0) 5 1 (by with_unfolding_all decide)
  · with_unfolding_all rfl

/-- A parsed calendar timestamp (the value of
`datetime.strptime(ts, "%Y-%m-%d %H:%M:%S")`). -/
structure PyDateTime where
  year : Nat
  month : Nat
  day : Nat
  hour : Nat
  minute : Nat
  second : Nat
  deriving DecidableEq, Repr

/-- Numeric value of a list of decimal digit characters. -/
def digitsToNat (ds : List Char) : Nat :=
  ds.foldl (fun acc c => 10 * acc + (c.toNat - 48)) 0

/-- The characters matched by the regex class `\s` (ASCII range), which
CPython substitutes for the literal space of the format string. -/
def isPySpace (c : Char) : Bool :=
  c = ' ' || c = '\t' || c = '\n' || c = '\r' || c = '\x0b' || c = '\x0c'

/-- Gregorian leap year, as used by `datetime`'s day-of-month validation. -/
def isLeapYear (y : Nat) : Bool :=
  y % 4 = 0 && (y % 100 ≠ 0 || y % 400 = 0)

/-- Number of days of month `m` in year `y` (`datetime` validation). -/
def daysInMonth (y m : Nat) : Nat :=
  if m = 2 then (if isLeapYear y then 29 else 28)
  else if m = 4 ∨ m = 6 ∨ m = 9 ∨ m = 11 then 30
  else 31

/-- Match one numeric field of the format: CPython's `_strptime` regexes for
`%m`, `%d`, `%H`, `%M`, `%S` accept exactly one or two digits whose value
lies in the field's range (the two-digit alternations `1[0-2]|0[1-9]|[1-9]`
and friends amount to a range check that excludes `00` for `%m`/`%d` via the
lower bound). Returns the value and the unconsumed characters. -/
def parseComp (lo hi : Nat) (cs : List Char) : Option (Nat × List Char) :=
  let ds := cs.takeWhile Char.isDigit
  if ds.length = 1 ∨ ds.length = 2 then
    let v := digitsToNat ds
    if lo ≤ v ∧ v ≤ hi then some (v, cs.dropWhile Char.isDigit) else none
  else none

/-- Match `%Y`: exactly four digits (`\d\d\d\d` in CPython's `_strptime`). -/
def parseYear (cs : List Char) : Option (Nat × List Char) :=
  let ds := cs.takeWhile Char.isDigit
  if ds.length = 4 then some (digitsToNat ds, cs.dropWhile Char.isDigit)
  else none

/-- Match one expected literal separator character. -/
def expectChar (c : Char) : List Char → Option (List Char)
  | x :: rest => if x = c then some rest else none
  | [] => none

/-- Match the format's space: one or more whitespace characters (`\s+`). -/
def skipSpaces1 (cs : List Char) : Option (List Char) :=
  if (cs.takeWhile isPySpace).length = 0 then none
  else some (cs.dropWhile isPySpace)

/-- CPython's `datetime.strptime(s, "%Y-%m-%d %H:%M:%S")` as called by
`TimePosition._validate_timestamp` in `src/structs.py` (`_DATEFORMAT`):
`none` models the `ValueError` raised on non-matching input. The whole
string must be consumed (`unconverted data remains` check), and the
`datetime` constructor additionally requires `year ≥ 1` (`MINYEAR`) and a
valid day of month. Digits are modelled as ASCII digits. -/
def parseDateTime (s : String) : Option PyDateTime := do
  let (y, r1) ← parseYear s.toList
  let r2 ← expectChar '-' r1
  let (m, r3) ← parseComp 1 12 r2
  let r4 ← expectChar '-' r3
  let (d, r5) ← parseComp 1 31 r4
  let r6 ← skipSpaces1 r5
  let (h, r7) ← parseComp 0 23 r6
  let r8 ← expectChar ':' r7
  let (mi, r9) ← parseComp 0 59 r8
  let r10 ← expectChar ':' r9
  let (sec, r11) ← parseComp 0 59 r10
  if r11 = [] ∧ 1 ≤ y ∧ d ≤ daysInMonth y m then
    pure ⟨y, m, d, h, mi, sec⟩
  else none

/-- Embedding of `TimePosition` from `src/structs.py`: timestamp string validated in
`__post_init__` (which replaces the raw string by the parsed datetime and
sets `as_array = [timestamp, lat, lon]`). -/
structure TimePosition where
  timestamp : PyDateTime
  lat : ℚ
  lon : ℚ
  as_array : PyDateTime × ℚ × ℚ
  deriving DecidableEq, Repr

/-- Construction of a `TimePosition` (`__init__` plus `__post_init__` from
`src/structs.py`): `none` models the `ValueError` raised when the timestamp
string does not parse under `"%Y-%m-%d %H:%M:%S"`. -/
def mkTimePosition (ts : String) (lat lon : ℚ) : Option TimePosition :=
  match parseDateTime ts with
  | none => none
  | some dt => some ⟨dt, lat, lon, (dt, lat, lon)⟩

/-- Embedding of `TimePosition.position` from `src/structs.py`: the `(lat, lon)` pair. -/
def TimePosition.position (tp : TimePosition) : ℚ × ℚ := (tp.lat, tp.lon)

/-- C10: constructing a `TimePosition` raises `ValueError` iff the timestamp
string does not parse under `"%Y-%m-%d %H:%M:%S"`; on success the stored
timestamp is the parsed datetime, `as_array` is `[timestamp, lat, lon]`, and
`position` returns the `(lat, lon)` pair unchanged. -/
theorem timeposition_validation (s : String) (lat lon : ℚ) :
    (mkTimePosition s lat lon = none ↔ parseDateTime s = none) ∧
    (∀ dt, parseDateTime s = some dt →
      mkTimePosition s lat lon = some ⟨dt, lat, lon, (dt, lat, lon)⟩ ∧
      TimePosition.position ⟨dt, lat, lon, (dt, lat, lon)⟩ = (lat, lon)) := by
  constructor
  · cases h : parseDateTime s <;> simp [mkTimePosition, h]
  · intro dt h
    exact ⟨by simp [mkTimePosition, h], rfl⟩

/-- C10 witness: `"2021-07-03 12:30:05"` parses — the constructed object
stores the parsed datetime, the `[timestamp, lat, lon]` array and returns
`position = (54, 8)`; and `"2021-02-30 10:00:00"` (February 30th) fails
to parse, so construction raises. -/
theorem timeposition_validation_witness :
    mkTimePosition "2021-07-03 12:30:05" 54 8 =
      some ⟨⟨2021, 7, 3, 12, 30, 5⟩, 54, 8, (⟨2021, 7, 3, 12, 30, 5⟩, 54, 8)⟩ ∧
    TimePosition.position ⟨⟨2021, 7, 3, 12, 30, 5⟩, 54, 8,
      (⟨2021, 7, 3, 12, 30, 5⟩, 54, 8)⟩ = (54, 8) ∧
    mkTimePosition "2021-02-30 10:00:00" 54 8 = none := by
  refine ⟨?_, ?_, ?_⟩
  · exact ((timeposition_validation "2021-07-03 12:30:05" 54 8).2
      ⟨2021, 7, 3, 12, 30, 5⟩ (by with_unfolding_all rfl)).1
  · exact ((timeposition_validation "2021-07-03 12:30:05" 54 8).2
      ⟨2021, 7, 3, 12, 30, 5⟩ (by with_unfolding_all rfl)).2
  · exact (timeposition_validation "2021-02-30 10:00:00" 54 8).1.mpr
      (by with_unfolding_all rfl)
